import Mathlib

/-!
Shallow embedding of the Glowmarkt Home Assistant integration
(`sensor.py`, `glowmarkt_api.py`) in Lean 4, together with theorems about
the reconciliation engine (`inject_historical_data`), the fetcher
(`GlowmarktAPI.get_hourly_readings`) and the derived sensor attributes
(`GlowmarktSensor.extra_state_attributes`).

Numeric values are modelled as rationals; Python's `round(x, n)` (banker's
rounding to `n` decimal places) is modelled exactly by `bankRound`.
Timestamps are modelled as integer seconds since the epoch; truncating a
datetime to the hour is `truncHour`.
-/

namespace Glowmarkt

/-- Python's built-in `round` to an integer: round half to even.
(`Rat.floor` rather than `⌊·⌋` keeps the definition kernel-computable.) -/
def bankRound (q : ℚ) : ℤ :=
  let f := q.floor
  let r := q - (f : ℚ)
  if r < 1/2 then f
  else if 1/2 < r then f + 1
  else if f % 2 = 0 then f else f + 1

/-- Python `round(q, 3)` on exact decimals. -/
def round3 (q : ℚ) : ℚ := (bankRound (q * 1000) : ℚ) / 1000

/-- Python `round(q, 4)` on exact decimals. -/
def round4 (q : ℚ) : ℚ := (bankRound (q * 10000) : ℚ) / 10000

/-- One persisted statistic row (`StatisticData(start=, state=, sum=)` in
`sensor.py`): `start` is the hour timestamp, `state` the bucket's own value,
`sum` the running cumulative total. -/
structure StatPoint where
  start : ℤ
  state : ℚ
  sum : ℚ
  deriving DecidableEq, Repr

/-- Lookup of an existing statistic row by hour timestamp:
`timestamp in existing_stats_dict` / `existing_stats_dict[timestamp]`
(`sensor.py` lines 188-190).  The dict is keyed by `start`, so hours in the
tail are distinct; `findStat` returns the first match. -/
def findStat : List StatPoint → ℤ → Option StatPoint
  | [], _ => none
  | p :: rest, h => if p.start = h then some p else findStat rest h

/-- Python's `max(existing_stats_dict.values(), key=...)` over `start`
(`sensor.py` line 179).  Python's `max` keeps the earlier element on ties. -/
def maxByStart (l : List StatPoint) : Option StatPoint :=
  l.foldl
    (fun acc p =>
      match acc with
      | none => some p
      | some q => if q.start < p.start then some p else some q)
    none

/-- Initial `last_known_sum` (`sensor.py` lines 176-180): the rounded sum of
the latest existing row, or `0` when the tail is empty. -/
def lastKnownSum0 (tail : List StatPoint) : ℚ :=
  match maxByStart tail with
  | none => 0
  | some p => round3 p.sum

/-- One iteration of the reconciliation loop (`sensor.py` lines 184-213),
acting on the accumulator `(statistics, last_known_sum)` and one aggregated
hourly item `(timestamp, value)`. -/
def reconcileStep (tail : List StatPoint) :
    List StatPoint × ℚ → ℤ × ℚ → List StatPoint × ℚ
  | (stats, lks), (h, v0) =>
    let v := round3 v0
    let newSum :=
      match findStat tail h with
      | some p =>
          if 1/1000 < |p.state - v| then round3 (lks + (v - p.state))
          else p.sum
      | none => round3 (lks + v)
    (stats ++ [⟨h, v, newSum⟩], newSum)

/-- Insertion into an hour-sorted list, used to model Python's
`sorted(hourly_data.items())`. -/
def insertByHour (p : ℤ × ℚ) : List (ℤ × ℚ) → List (ℤ × ℚ)
  | [] => [p]
  | q :: rest => if p.1 ≤ q.1 then p :: q :: rest else q :: insertByHour p rest

/-- Model of `sorted(hourly_data.items())` (`sensor.py` line 184): the aggregated
hourly buckets in ascending hour order. -/
def sortByHour (l : List (ℤ × ℚ))  : List (ℤ × ℚ) := l.foldr insertByHour []

/-- The reconciliation engine (`sensor.py` lines 175-213): fold the sorted
hourly buckets through `reconcileStep`, starting from the empty statistics
list and the tail's last known sum; return the emitted statistics. -/
def reconcile (tail : List StatPoint) (hourly : List (ℤ × ℚ)) : List StatPoint :=
  ((sortByHour hourly).foldl (reconcileStep tail) ([], lastKnownSum0 tail)).1

/-- Truncation of a timestamp (seconds) to its containing hour:
`datetime.replace(minute=0, second=0, microsecond=0)`.  For a positive
modulus, Lean's `Int` `%` is non-negative, matching Python. -/
def truncHour (t : ℤ) : ℤ := t - t % 3600

/-- Adding a value into the `hourly_data` defaultdict (`sensor.py` line 172):
the bucket list keeps one entry per hour, summing repeated hours. -/
def addToBucket : List (ℤ × ℚ) → ℤ → ℚ → List (ℤ × ℚ)
  | [], h, v => [(h, v)]
  | (h', v') :: rest, h, v =>
      if h' = h then (h', v' + v) :: rest else (h', v') :: addToBucket rest h v

/-- Hourly aggregation (`sensor.py` lines 163-173): skip readings with a
missing value, divide cost readings by 100 (pence to pounds), bucket the
timestamp to its hour and sum within buckets.  The preliminary
`sorted(sorted_readings)` of line 160 only changes the order in which buckets
are filled, which `sortByHour` later normalises, so it is not modelled. -/
def aggStep (isCost : Bool) (m : List (ℤ × ℚ)) (r : ℤ × Option ℚ) :
    List (ℤ × ℚ) :=
  match r.2 with
  | none => m
  | some v => addToBucket m (truncHour r.1) (if isCost then v / 100 else v)

/-- The full `hourly_data` aggregation loop. -/
def aggregate (isCost : Bool) (readings : List (ℤ × Option ℚ)) : List (ℤ × ℚ) :=
  readings.foldl (aggStep isCost) []

/-- A raw reading as `inject_historical_data` receives it from the
coordinator: `datetime` is `none` when `datetime.strptime` would raise on the
reading's datetime string, `value` is `reading.get(data_type)`. -/
structure RawReading where
  datetime : Option ℤ
  value : Option ℚ
  deriving DecidableEq, Repr

/-- Parse all datetimes as the loop of `sensor.py` lines 164-172 does: the
first `strptime` failure raises out of the loop (caught only by the pass-wide
`except` at line 225). -/
def parseAll : List RawReading → Option (List (ℤ × Option ℚ))
  | [] => some []
  | r :: rest =>
    match r.datetime with
    | none => none
    | some t =>
      match parseAll rest with
      | none => none
      | some l => some ((t, r.value) :: l)

/-- Model of `inject_historical_data` (`sensor.py` lines 148-228) for one sensor:
`tailResult` is the outcome of `get_last_statistics`; the result is `none`
when the pass is aborted by the catch-all `except` (tail retrieval raised, or
some reading's datetime failed to parse) — in which case nothing is imported
and no exception escapes to the caller — and `some stats` with the imported
statistics otherwise (`some []` means nothing needed importing). -/
def injectHistoricalData (tailResult : Except Unit (List StatPoint))
    (isCost : Bool) (readings : List RawReading) : Option (List StatPoint) :=
  match tailResult with
  | .error _ => none
  | .ok tail =>
    match parseAll readings with
    | none => none
    | some parsed => some (reconcile tail (aggregate isCost parsed))

/-! ### The fetcher (`glowmarkt_api.py`, `GlowmarktAPI`)

HTTP calls are modelled as functions supplied by a `FetchEnv`; each call
returns `ok`, `unauthorized` (an `aiohttp.ClientResponseError`, e.g. an HTTP
401) or `netErr` (any other `aiohttp.ClientError`). -/

/-- Outcome of one HTTP request. -/
inductive CallResult (α : Type) where
  | ok (a : α)
  | unauthorized
  | netErr
  deriving DecidableEq

/-- One resource from the virtual-entity tree.  The `nameHas*` flags model
the substring tests `"electricity" in resource_name`, `"gas" in
resource_name`, `"cost" in resource_name` (`glowmarkt_api.py` lines
135-137). -/
structure Resource where
  resourceId : Option ℕ
  nameHasElectricity : Bool
  nameHasGas : Bool
  nameHasCost : Bool

/-- One virtual entity; `resources = none` models a missing `"resources"`
key (`glowmarkt_api.py` line 122). -/
structure Entity where
  resources : Option (List Resource)

/-- One merged reading entry (`{"datetime": ..., "consumption": 0, "cost": 0}`,
`glowmarkt_api.py` line 167). -/
structure ReadingEntry where
  datetime : ℤ
  consumption : ℚ
  cost : ℚ
  deriving DecidableEq, Repr

/-- The `readings = {"gas": [], "electricity": []}` accumulator. -/
structure Readings where
  gas : List ReadingEntry
  electricity : List ReadingEntry
  deriving DecidableEq, Repr

/-- The remote API, as opaque request functions: `auth` is the result of
`authenticate`; `listEntities token` the GET of `/virtualentity`;
`catchup token rid` the GET of `/resource/{rid}/catchup`;
`getReadings token rid (from, to)` the GET of `/resource/{rid}/readings`. -/
structure FetchEnv where
  auth : CallResult ℕ
  listEntities : ℕ → CallResult (List Entity)
  catchup : ℕ → Option ℕ → CallResult Unit
  getReadings : ℕ → ℕ → ℤ × ℤ → CallResult (List (ℤ × ℚ))

/-- The requested readings window (`glowmarkt_api.py` lines 144-145):
`end_date = utcnow() truncated to the hour - 1h`,
`start_date = end_date - 23h`. -/
def fetchWindow (now : ℤ) : ℤ × ℤ :=
  let endDate := truncHour now - 3600
  let startDate := endDate - 23 * 3600
  (startDate, endDate)

/-- The `resource_type`/`data_type` classification (`glowmarkt_api.py` lines
135-141): a resource matching neither electricity nor gas is skipped;
otherwise the result is `(isElectricity, isCost)` (electricity wins when both
substrings occur, cost wins over consumption). -/
def classify (r : Resource) : Option (Bool × Bool) :=
  if r.nameHasElectricity || r.nameHasGas then
    some (r.nameHasElectricity, r.nameHasCost)
  else none

/-- Merging one raw reading row into the per-resource-type list
(`glowmarkt_api.py` lines 161-169): find the entry with the same datetime or
append a fresh zero entry, then add the value onto the matching field. -/
def addRow (isCost : Bool) : List ReadingEntry → ℤ → ℚ → List ReadingEntry
  | [], t, v =>
      [{ datetime := t,
         consumption := if isCost then 0 else v,
         cost := if isCost then v else 0 }]
  | e :: rest, t, v =>
      if e.datetime = t then
        (if isCost then { e with cost := e.cost + v }
         else { e with consumption := e.consumption + v }) :: rest
      else e :: addRow isCost rest t v

/-- Dispatch a row to the gas or electricity list. -/
def addRowToReadings (isElec isCost : Bool) (acc : Readings) (t : ℤ) (v : ℚ) :
    Readings :=
  if isElec then { acc with electricity := addRow isCost acc.electricity t v }
  else { acc with gas := addRow isCost acc.gas t v }

/-- The per-resource body of the main loop (`glowmarkt_api.py` lines
126-175): skip resources without id or matching name; fetch the readings
window; on `ok` merge the rows (an empty `data` list merges nothing, line
160); on a `ClientResponseError` skip the resource (`continue`, line 173); on
any other `ClientError` the outer handler re-raises (lines 181-183). -/
def processResource (env : FetchEnv) (token : ℕ) (now : ℤ)
    (acc : Readings) (r : Resource) : CallResult Readings :=
  match r.resourceId with
  | none => .ok acc
  | some rid =>
    match classify r with
    | none => .ok acc
    | some (isElec, isCost) =>
      match env.getReadings token rid (fetchWindow now) with
      | .ok rows =>
          .ok (rows.foldl
            (fun a row => addRowToReadings isElec isCost a row.1 row.2) acc)
      | .unauthorized => .ok acc
      | .netErr => .netErr

/-- Fold `processResource` over a resource list, propagating a raised
error. -/
def processResources (env : FetchEnv) (token : ℕ) (now : ℤ)
    (acc : Readings) : List Resource → CallResult Readings
  | [] => .ok acc
  | r :: rest =>
    match processResource env token now acc r with
    | .ok acc' => processResources env token now acc' rest
    | .unauthorized => .unauthorized
    | .netErr => .netErr

/-- Fold over the entities, skipping those without a `resources` key. -/
def processEntities (env : FetchEnv) (token : ℕ) (now : ℤ)
    (acc : Readings) : List Entity → CallResult Readings
  | [] => .ok acc
  | e :: rest =>
    match e.resources with
    | none => processEntities env token now acc rest
    | some rs =>
      match processResources env token now acc rs with
      | .ok acc' => processEntities env token now acc' rest
      | .unauthorized => .unauthorized
      | .netErr => .netErr

/-- One catch-up request per resource (`glowmarkt_api.py` lines 76-86): a
`ClientResponseError` is swallowed (`continue`); any other `ClientError`
reaches the outer handler, which re-raises. -/
def catchupResources (env : FetchEnv) (token : ℕ) :
    List Resource → CallResult Unit
  | [] => .ok ()
  | r :: rest =>
    match env.catchup token r.resourceId with
    | .ok _ => catchupResources env token rest
    | .unauthorized => catchupResources env token rest
    | .netErr => .netErr

/-- Catch-up over the entity list. -/
def catchupEntities (env : FetchEnv) (token : ℕ) :
    List Entity → CallResult Unit
  | [] => .ok ()
  | e :: rest =>
    match e.resources with
    | none => catchupEntities env token rest
    | some rs =>
      match catchupResources env token rs with
      | .ok _ => catchupEntities env token rest
      | .unauthorized => .unauthorized
      | .netErr => .netErr

/-- Model of `send_catchup_request` (`glowmarkt_api.py` lines 43-92), called with the
token already set: list the entities (any failure re-raises, lines 87-89) and
fire a catch-up per resource. -/
def catchupPass (env : FetchEnv) (token : ℕ) : CallResult Unit :=
  match env.listEntities token with
  | .ok entities => catchupEntities env token entities
  | .unauthorized => .unauthorized
  | .netErr => .netErr

/-- The main fetch once a token is in hand (`glowmarkt_api.py` lines
103-183): the optional catch-up pass (only after the initial load), then the
entity list (failure re-raises, lines 181-183), then the per-resource
readings merge. -/
def fetchBody (env : FetchEnv) (token : ℕ) (initialLoadCompleted : Bool)
    (now : ℤ) : CallResult Readings :=
  match (if initialLoadCompleted then catchupPass env token else .ok ()) with
  | .ok _ =>
    match env.listEntities token with
    | .ok entities => processEntities env token now ⟨[], []⟩ entities
    | .unauthorized => .unauthorized
    | .netErr => .netErr
  | .unauthorized => .unauthorized
  | .netErr => .netErr

/-- Model of `GlowmarktAPI.get_hourly_readings` (`glowmarkt_api.py` lines 94-183).
`token0` is the cached `self.token`; the second component counts how many
times `authenticate` is invoked during the call.  Authentication happens
only when no token is cached (lines 97-98); its failure propagates. -/
def getHourlyReadings (env : FetchEnv) (token0 : Option ℕ)
    (initialLoadCompleted : Bool) (now : ℤ) : CallResult Readings × ℕ :=
  match token0 with
  | some t => (fetchBody env t initialLoadCompleted now, 0)
  | none =>
    match env.auth with
    | .ok t => (fetchBody env t initialLoadCompleted now, 1)
    | .unauthorized => (.unauthorized, 1)
    | .netErr => (.netErr, 1)

/-! ### Sensor attributes (`sensor.py`, `GlowmarktSensor.extra_state_attributes`) -/

/-- A coordinator reading as seen by `extra_state_attributes`:
`reading.get("consumption", 0)` / `reading.get("cost", 0)` with the defaults
already applied. -/
structure AttrReading where
  consumption : ℚ
  cost : ℚ

/-- The two running totals (`sensor.py` lines 274-282): `hasCons` and
`hasCost` model `"consumption" in self._sensor_type` and
`"cost" in self._sensor_type`; a total only accumulates when its flag is
set. -/
def totals (hasCons hasCost : Bool) (rs : List AttrReading) : ℚ × ℚ :=
  rs.foldl
    (fun (a : ℚ × ℚ) r =>
      ((if hasCons then a.1 + r.consumption else a.1),
       (if hasCost then a.2 + r.cost else a.2)))
    (0, 0)

/-- The `cost_per_unit` attribute (`sensor.py` lines 284-286): present only
when both totals are strictly positive, with value
`round((total_cost / 100) / total_consumption, 4)`. -/
def costPerUnitAttr (hasCons hasCost : Bool) (rs : List AttrReading) :
    Option ℚ :=
  let t := totals hasCons hasCost rs
  if 0 < t.1 ∧ 0 < t.2 then some (round4 ((t.2 / 100) / t.1)) else none

/-- A concrete environment exercising the re-authentication behaviour: the
cached token `7` is stale (`listEntities` answers `unauthorized` to
anything but token `1`), while a fresh authentication would return token
`1`, which `listEntities` accepts. -/
def envCex : FetchEnv where
  auth := .ok 1
  listEntities := fun t => if t = 1 then .ok [] else .unauthorized
  catchup := fun _ _ => .ok ()
  getReadings := fun _ _ _ => .netErr

/-! ### Helper lemmas -/

/-- Predicate: `q` is an integer multiple of `1/1000`, the shape of every value
`round3` produces (and of the initial `last_known_sum`). -/
def isMilli (q : ℚ) : Prop := ∃ k : ℤ, q = (k : ℚ) / 1000

lemma ratFloor_eq_intFloor (q : ℚ) : q.floor = ⌊q⌋ := by
  rw [Rat.floor_def', Rat.floor_def]

lemma bankRound_ge_floor (q : ℚ) : ⌊q⌋ ≤ bankRound q := by
  simp only [bankRound, ratFloor_eq_intFloor]
  split_ifs <;> omega

lemma isMilli_round3 (q : ℚ) : isMilli (round3 q) :=
  ⟨bankRound (q * 1000), rfl⟩

lemma isMilli_zero : isMilli 0 := ⟨0, by norm_num⟩

lemma round3_nonneg {q : ℚ} (h : 0 ≤ q) : 0 ≤ round3 q := by
  unfold round3
  have h1 : (0 : ℤ) ≤ ⌊q * 1000⌋ := Int.floor_nonneg.mpr (by positivity)
  have h2 : (0 : ℤ) ≤ bankRound (q * 1000) :=
    le_trans h1 (bankRound_ge_floor (q * 1000))
  have h3 : (0 : ℚ) ≤ (bankRound (q * 1000) : ℚ) := by exact_mod_cast h2
  positivity

lemma le_round3_add {a v : ℚ} (ha : isMilli a) (hv : 0 ≤ v) :
    a ≤ round3 (a + v) := by
  obtain ⟨k, rfl⟩ := ha
  unfold round3
  have harg : ((k : ℚ) / 1000 + v) * 1000 = (k : ℚ) + v * 1000 := by ring
  rw [harg]
  have h0 : (0 : ℤ) ≤ ⌊v * 1000⌋ := Int.floor_nonneg.mpr (by positivity)
  have h1 : k ≤ ⌊(k : ℚ) + v * 1000⌋ := by
    rw [Int.floor_int_add]
    omega
  have hk : k ≤ bankRound ((k : ℚ) + v * 1000) :=
    le_trans h1 (bankRound_ge_floor _)
  have hq : (k : ℚ) ≤ (bankRound ((k : ℚ) + v * 1000) : ℚ) := by exact_mod_cast hk
  exact div_le_div_of_nonneg_right hq (by norm_num) |>.trans_eq rfl

lemma mem_insertByHour {q p : ℤ × ℚ} {l : List (ℤ × ℚ)} :
    q ∈ insertByHour p l ↔ q = p ∨ q ∈ l := by
  induction l with
  | nil => simp [insertByHour]
  | cons r rest ih =>
    unfold insertByHour
    split
    · simp
    · simp only [List.mem_cons, ih]
      tauto

lemma mem_sortByHour {q : ℤ × ℚ} {l : List (ℤ × ℚ)} :
    q ∈ sortByHour l ↔ q ∈ l := by
  induction l with
  | nil => simp [sortByHour]
  | cons p rest ih =>
    show q ∈ insertByHour p (sortByHour rest) ↔ _
    rw [mem_insertByHour, ih]
    simp

lemma isMilli_lastKnownSum0 (tail : List StatPoint) :
    isMilli (lastKnownSum0 tail) := by
  unfold lastKnownSum0
  cases maxByStart tail with
  | none => exact isMilli_zero
  | some p => exact isMilli_round3 p.sum

/-- Invariant of the reconciliation fold: if every remaining bucket is a new
hour with a non-negative value, the emitted statistics keep non-decreasing
sums. -/
lemma reconcile_foldl_chain (tail : List StatPoint) (l : List (ℤ × ℚ)) :
    ∀ (stats : List StatPoint) (lks : ℚ),
      (∀ p ∈ l, findStat tail p.1 = none ∧ 0 ≤ p.2) →
      isMilli lks →
      List.Chain' (fun a b => a.sum ≤ b.sum) stats →
      (∀ z ∈ stats.getLast?, z.sum ≤ lks) →
      List.Chain' (fun a b => a.sum ≤ b.sum)
        (l.foldl (reconcileStep tail) (stats, lks)).1 := by
  induction l with
  | nil => intro stats lks _ _ hchain _; exact hchain
  | cons hd rest ih =>
    intro stats lks hl hm hchain hlast
    obtain ⟨hfind, hv⟩ := hl hd (List.mem_cons_self hd rest)
    have hstep : reconcileStep tail (stats, lks) hd =
        (stats ++ [⟨hd.1, round3 hd.2, round3 (lks + round3 hd.2)⟩],
          round3 (lks + round3 hd.2)) := by
      obtain ⟨h, v⟩ := hd
      simp only [reconcileStep, hfind]
    have hle : lks ≤ round3 (lks + round3 hd.2) :=
      le_round3_add hm (round3_nonneg hv)
    rw [List.foldl_cons, hstep]
    apply ih
    · intro p hp; exact hl p (List.mem_cons_of_mem hd hp)
    · exact isMilli_round3 _
    · refine List.Chain'.append hchain (List.chain'_singleton _) ?_
      intro x hx y hy
      simp only [List.head?_cons, Option.mem_def, Option.some.injEq] at hy
      subst hy
      exact le_trans (hlast x hx) hle
    · intro z hz
      rw [List.getLast?_append_cons] at hz
      simp only [List.getLast?_singleton, Option.mem_def, Option.some.injEq] at hz
      subst hz
      rfl

/-! ### Claim theorems -/

/-- Claim C1, counterexample: with the existing tail `[{3600, 5, 10}]` and
the batch `[(0, 1), (3600, 2)]` — all observation values non-negative — the
pass emits `[{0, 1, 11}, {3600, 2, 8}]`, whose cumulative sums decrease from
`11` to `8`: a downward revision of an existing hour pushes the running sum
below the sum already emitted for an earlier new hour, so the claim as stated
is false. -/
theorem C1_monotone_cex :
    (∀ p ∈ [((0 : ℤ), (1 : ℚ)), (3600, 2)], 0 ≤ p.2) ∧
    reconcile [⟨3600, 5, 10⟩] [(0, 1), (3600, 2)] =
      [⟨0, 1, 11⟩, ⟨3600, 2, 8⟩] ∧
    ¬ List.Chain' (fun a b => a.sum ≤ b.sum)
        (reconcile [⟨3600, 5, 10⟩] [(0, 1), (3600, 2)]) := by
  have heq : reconcile [⟨3600, 5, 10⟩] [(0, 1), (3600, 2)] =
      [⟨0, 1, 11⟩, ⟨3600, 2, 8⟩] := by
    norm_num [reconcile, sortByHour, insertByHour, reconcileStep, findStat,
      lastKnownSum0, maxByStart, round3, bankRound, Rat.floor]
  refine ⟨by decide, heq, ?_⟩
  rw [heq]
  simp only [List.chain'_cons, List.chain'_singleton, and_true]
  norm_num

/-- Claim C1 (amended): for a reconciliation pass over a batch of hourly
observations with non-negative values, all of whose hours are absent from the
existing tail (no revisions of already-persisted hours), the emitted
statistic points, in ascending hour order, have non-decreasing cumulative
sums. -/
theorem C1_monotone_sums (tail : List StatPoint) (hourly : List (ℤ × ℚ))
    (hnew : ∀ p ∈ hourly, findStat tail p.1 = none ∧ 0 ≤ p.2) :
    List.Chain' (fun a b => a.sum ≤ b.sum) (reconcile tail hourly) := by
  unfold reconcile
  apply reconcile_foldl_chain
  · intro p hp
    exact hnew p (mem_sortByHour.mp hp)
  · exact isMilli_lastKnownSum0 tail
  · exact List.chain'_nil
  · intro z hz
    simp at hz

/-- Claim C1 witness: the amended theorem applied to the tail `[{0, 2, 10}]`
and the all-new-hours batch `[(3600, 3), (7200, 1)]`. -/
theorem C1_monotone_sums_witness :
    (∀ p ∈ [((3600 : ℤ), (3 : ℚ)), (7200, 1)],
      findStat [⟨0, 2, 10⟩] p.1 = none ∧ 0 ≤ p.2) ∧
    List.Chain' (fun a b => a.sum ≤ b.sum)
      (reconcile [⟨0, 2, 10⟩] [(3600, 3), (7200, 1)]) :=
  ⟨by decide, C1_monotone_sums [⟨0, 2, 10⟩] [(3600, 3), (7200, 1)] (by decide)⟩

/-- Claim C2: with the existing tail `[{h0, 2.0, sum 10.0}]` and the single
new observation `(h0, 5.0)`, reconciliation emits exactly
`[{h0, 5.0, sum 13.0}]` — the baseline `10.0` corrected by the delta
`5.0 - 2.0`, not replayed from zero. -/
theorem C2_revision_correction (h0 : ℤ) :
    reconcile [⟨h0, 2, 10⟩] [(h0, 5)] = [⟨h0, 5, 13⟩] := by
  norm_num [reconcile, sortByHour, insertByHour, reconcileStep, findStat,
    lastKnownSum0, maxByStart, round3, bankRound, Rat.floor]

/-- Claim C3, counterexample: the aggregated observation `(0, 0)` — hourly
value zero — against the tail `[{0, 5, 10}]` IS emitted, as the point
`{0, 0, 5}`, and it advances `last_known_sum` from `10` to `5`, which the
following new hour `3600` then builds on (`sum 7`, not `12`): the code has no
zero-value filtering. -/
theorem C3_zero_filtering_cex :
    reconcile [⟨0, 5, 10⟩] [(0, 0), (3600, 2)] =
      [⟨0, 0, 5⟩, ⟨3600, 2, 7⟩] ∧
    (⟨0, 0, 5⟩ : StatPoint) ∈ reconcile [⟨0, 5, 10⟩] [(0, 0), (3600, 2)] := by
  have heq : reconcile [⟨0, 5, 10⟩] [(0, 0), (3600, 2)] =
      [⟨0, 0, 5⟩, ⟨3600, 2, 7⟩] := by
    norm_num [reconcile, sortByHour, insertByHour, reconcileStep, findStat,
      lastKnownSum0, maxByStart, round3, bankRound, Rat.floor]
  exact ⟨heq, by rw [heq]; exact List.mem_cons_self _ _⟩

/-- Claim C3 (amended): an observation whose raw value is missing is skipped
during aggregation and never contributes to any bucket; but an aggregated
hourly value of zero IS emitted as a statistic point (state `0`) and the
running `last_known_sum` is set to that point's sum like for any other
emitted point. -/
theorem C3_missing_skipped_zero_emitted :
    (∀ (isCost : Bool) (readings : List (ℤ × Option ℚ)),
      aggregate isCost readings =
        aggregate isCost (readings.filter (fun r => r.2.isSome))) ∧
    reconcile [] [(0, 0)] = [⟨0, 0, 0⟩] := by
  constructor
  · intro isCost readings
    unfold aggregate
    suffices h : ∀ m : List (ℤ × ℚ),
        readings.foldl (aggStep isCost) m =
          (readings.filter (fun r => r.2.isSome)).foldl (aggStep isCost) m from
      h []
    induction readings with
    | nil => intro m; rfl
    | cons r rest ih =>
      intro m
      cases hv : r.2 with
      | none => simp [aggStep, hv, ih]
      | some v => simp [aggStep, hv, ih]
  · norm_num [reconcile, sortByHour, insertByHour, reconcileStep, findStat,
      lastKnownSum0, maxByStart, round3, bankRound, Rat.floor]

/-- Claim C4: with the existing tail `[{h0, 2.0, sum 10.0}]` and the single
new observation `(h0 + 1h, 3.0)`, reconciliation emits exactly
`[{h0 + 1h, 3.0, sum 13.0}]`. -/
theorem C4_new_hour_insertion (h0 : ℤ) :
    reconcile [⟨h0, 2, 10⟩] [(h0 + 3600, 3)] = [⟨h0 + 3600, 3, 13⟩] := by
  have hne : ¬ (h0 = h0 + 3600) := by omega
  norm_num [reconcile, sortByHour, insertByHour, reconcileStep, findStat,
    lastKnownSum0, maxByStart, round3, bankRound, Rat.floor, hne]

/-- Claim C5: the whole pass (tail lookup result, aggregation,
reconciliation) is a pure function of its inputs, so running it twice on the
same observation batch and the same existing tail yields identical emitted
statistic lists. -/
theorem C5_deterministic (tailResult : Except Unit (List StatPoint))
    (isCost : Bool) (readings : List RawReading) :
    injectHistoricalData tailResult isCost readings =
      injectHistoricalData tailResult isCost readings := rfl

/-- Claim C6, counterexample: one observation with an unparseable datetime
aborts the whole pass — `injectHistoricalData` with a successfully retrieved
(empty) tail and the batch `[bad, (hour 0, 3.0)]` imports nothing, although
the good observation alone would have been persisted as `{0, 3, 3}`.  So a
bad individual observation DOES fail the pass, contrary to the claim. -/
theorem C6_bad_observation_cex :
    injectHistoricalData (.ok []) false [⟨none, some 5⟩, ⟨some 0, some 3⟩] =
      none ∧
    injectHistoricalData (.ok []) false [⟨some 0, some 3⟩] =
      some [⟨0, 3, 3⟩] := by
  refine ⟨rfl, ?_⟩
  norm_num [injectHistoricalData, parseAll, aggregate, aggStep, addToBucket,
    truncHour, reconcile, sortByHour, insertByHour, reconcileStep, findStat,
    lastKnownSum0, maxByStart, round3, bankRound, Rat.floor]

/-- Claim C6 (amended): if retrieval of the existing tail fails, the whole
pass is aborted with nothing written and the error does not escape to the
caller; likewise an individual observation whose datetime fails to parse
aborts the whole pass (nothing written, no escalation) rather than being
skipped individually — only observations with a missing value are skipped
individually. -/
theorem C6_abort_semantics :
    (∀ (isCost : Bool) (readings : List RawReading),
      injectHistoricalData (.error ()) isCost readings = none) ∧
    (∀ (isCost : Bool) (tail : List StatPoint) (v : Option ℚ)
      (rest : List RawReading),
      injectHistoricalData (.ok tail) isCost (⟨none, v⟩ :: rest) = none) :=
  ⟨fun _ _ => rfl, fun _ _ _ _ => rfl⟩

/-- Claim C7, counterexample: with the stale cached token `7`, the entity
list request fails `unauthorized`; `get_hourly_readings` propagates the
error after zero `authenticate` invocations, even though re-authenticating
(which would succeed with token `1`) and retrying would have succeeded.  No
re-authenticate-and-retry logic exists. -/
theorem C7_no_reauth_cex :
    getHourlyReadings envCex (some 7) false 0 = (.unauthorized, 0) ∧
    envCex.auth = .ok 1 ∧ envCex.listEntities 1 = .ok [] :=
  ⟨rfl, rfl, rfl⟩

/-- Claim C7 (amended): when a token is cached, `get_hourly_readings` never
invokes `authenticate` — there is no re-authentication — and an
`unauthorized` failure of the entity-list call propagates directly to the
caller without any retry. -/
theorem C7_no_reauth_with_cached_token (env : FetchEnv) (t : ℕ)
    (ilc : Bool) (now : ℤ)
    (h : env.listEntities t = .unauthorized) :
    getHourlyReadings env (some t) ilc now = (.unauthorized, 0) := by
  cases ilc <;> simp [getHourlyReadings, fetchBody, catchupPass, h]

/-- Claim C7 witness: the amended theorem applied to `envCex` with the stale
cached token `7`. -/
theorem C7_no_reauth_witness :
    envCex.listEntities 7 = .unauthorized ∧
    getHourlyReadings envCex (some 7) true 0 = (.unauthorized, 0) :=
  ⟨rfl, C7_no_reauth_with_cached_token envCex 7 true 0 rfl⟩

/-- Claim C8: for every `now`, the requested readings window runs from `now`
truncated to the hour minus 24 hours to `now` truncated to the hour minus
1 hour; concretely, for `now` = 14:37 UTC the window's `to` bound is 13:00,
so the latest requested hourly bucket is 13:00–14:00 and the in-progress
hour is excluded. -/
theorem C8_fetch_window :
    (∀ now : ℤ, fetchWindow now =
      (truncHour now - 24 * 3600, truncHour now - 3600)) ∧
    fetchWindow (14 * 3600 + 37 * 60) = (-36000, 13 * 3600) := by
  constructor
  · intro now
    show (truncHour now - 3600 - 23 * 3600, truncHour now - 3600) = _
    have h24 : truncHour now - 3600 - 23 * 3600 = truncHour now - 24 * 3600 := by
      omega
    rw [h24]
  · decide

/-- Claim C9: cost readings are divided by 100 (pence to pounds) as they
enter hourly aggregation, while consumption readings pass through unchanged:
aggregating as cost equals aggregating as consumption with every raw value
pre-divided by 100, and a raw cost reading of `250` becomes the bucket value
`2.50`. -/
theorem C9_cost_conversion :
    (∀ readings : List (ℤ × Option ℚ),
      aggregate true readings =
        aggregate false (readings.map (fun r => (r.1, r.2.map (· / 100))))) ∧
    aggregate true [(0, some 250)] = [(0, 5/2)] := by
  constructor
  · intro readings
    unfold aggregate
    suffices h : ∀ m, readings.foldl (aggStep true) m =
        (readings.map (fun r => (r.1, r.2.map (· / 100)))).foldl
          (aggStep false) m from h []
    induction readings with
    | nil => intro m; rfl
    | cons r rest ih =>
      intro m
      cases hv : r.2 with
      | none => simp [aggStep, hv, ih]
      | some v => simp [aggStep, hv, ih]
  · norm_num [aggregate, aggStep, addToBucket, truncHour]

/-- Claim C10: the `cost_per_unit` attribute is present exactly when both
running totals (consumption and cost, each accumulated only when the sensor
type names it) are strictly positive; otherwise it is absent, so the
division `(total_cost / 100) / total_consumption` is never evaluated with a
zero denominator. -/
theorem C10_cost_per_unit_guard (hasCons hasCost : Bool)
    (rs : List AttrReading) :
    (costPerUnitAttr hasCons hasCost rs).isSome ↔
      0 < (totals hasCons hasCost rs).1 ∧
        0 < (totals hasCons hasCost rs).2 := by
  by_cases h : 0 < (totals hasCons hasCost rs).1 ∧
      0 < (totals hasCons hasCost rs).2 <;>
    simp [costPerUnitAttr, h]

end Glowmarkt
